import Mathlib

/-!
Shallow embedding of the MIDI Sample Dump Standard implementation
(Go package `sds` plus its command-line transfer loop).

Go machine model: `byte` is a `Nat` below 256, `uint` is 64-bit unsigned
arithmetic (wrapping modulo `2 ^ 64`), `int` is modelled as `Int` (the values
handled never approach the 64-bit boundary, and the one place where signed
overflow semantics matter — the `uint`/`int` conversions in the bit packer —
is modelled explicitly below).  A Go `panic` is modelled as the `.error` case
of `Except GoPanic`; run-time slice-bounds panics in `Decode` are modelled by
`goIndex` returning `none`.
-/

/-- The modulus of Go `uint` (64-bit) arithmetic. -/
def goWord : Nat := 2 ^ 64

/-- Go conversion `uint(i)` of a signed 64-bit `int` value. -/
def goUintOfInt (i : Int) : Nat := (i % (2 ^ 64 : Int)).toNat

/-- Go conversion `int(u)` of a `uint` value (two's-complement reinterpretation). -/
def goIntOfUint (u : Nat) : Int :=
  if u < 2 ^ 63 then (u : Int) else (u : Int) - 2 ^ 64

/-- Go `uint` subtraction `a - b`, which wraps modulo `2 ^ 64`. -/
def goSub (a b : Nat) : Nat := (a + (goWord - b % goWord)) % goWord

/-- Go slice indexing `l[i]`; `none` models the run-time bounds panic. -/
def goIndex (l : List Nat) (i : Nat) : Option Nat := l.get? i

/-- A Go `panic` with its message. -/
structure GoPanic where
  msg : String
  deriving DecidableEq

/-- DumpHeader is sent to the receiver to provide information about the
waveform data that is about to be sent in DataPacket messages. -/
structure DumpHeader where
  channel : Nat
  number : Nat
  bitDepth : Nat
  period : Nat
  length : Nat
  loopStart : Nat
  loopEnd : Nat
  loopType : Nat
  deriving DecidableEq

/-- DumpRequest is sent by the receiving device who wishes to initiate the dump. -/
structure DumpRequest where
  channel : Nat
  number : Nat
  deriving DecidableEq

/-- DataPacket transfers 120 bytes of waveform data at a time.  The Go field
`Data [120]byte` is a fixed-size array; its length is recorded by `dataLen`. -/
structure DataPacket where
  channel : Nat
  packetNumber : Nat
  data : List Nat
  checksum : Nat
  deriving DecidableEq

/-- Length of the fixed-size `Data` array of a `DataPacket`. -/
def dataLen : Nat := 120

/-- ControlPacket is sent to control the data transfer. -/
structure ControlPacket where
  type : Nat
  channel : Nat
  packetNumber : Nat
  deriving DecidableEq

/-- Control packet type `Ack`. -/
def Ack : Nat := 0x7F

/-- Control packet type `Nak`. -/
def Nak : Nat := 0x7E

/-- Control packet type `Cancel`. -/
def Cancel : Nat := 0x7D

/-- Control packet type `Wait`. -/
def Wait : Nat := 0x7C

/-- Any SDS protocol message (the closed set of implementations of Go's
`Message` interface). -/
inductive Message where
  | header (h : DumpHeader)
  | data (p : DataPacket)
  | request (r : DumpRequest)
  | control (c : ControlPacket)
  deriving DecidableEq

/-- `append14bit` splits a 14-bit number into two 7-bit bytes, low first. -/
def append14bit (b : List Nat) (num : Nat) : List Nat :=
  b ++ [num % 256 &&& 0x7F, (num >>> 7) % 256 &&& 0x7F]

/-- `append20bit` splits a 20-bit number into three groups (low, mid 7 bits,
high 6 bits). -/
def append20bit (b : List Nat) (num : Nat) : List Nat :=
  b ++ [num % 256 &&& 0x7F, (num >>> 7) % 256 &&& 0x7F, (num >>> 14) % 256 &&& 0x3F]

/-- Encoding of a `DumpHeader` (appends to `b`). -/
def DumpHeader.Encode (msg : DumpHeader) (b : List Nat) : List Nat :=
  let b := b ++ [0xF0, 0x7E, msg.channel &&& 0x7F, 0x01]
  let b := append14bit b msg.number
  let b := b ++ [msg.bitDepth &&& 0x7F]
  let b := append20bit b msg.period
  let b := append20bit b msg.length
  let b := append20bit b msg.loopStart
  let b := append20bit b msg.loopEnd
  let b := b ++ [msg.loopType &&& 0x7F]
  b ++ [0xF7]

/-- Encoding of a `DataPacket` (appends to `b`). -/
def DataPacket.Encode (msg : DataPacket) (b : List Nat) : List Nat :=
  let b := b ++ [0xF0, 0x7E, msg.channel &&& 0x7F, 0x02]
  let b := b ++ [msg.packetNumber &&& 0x7F]
  let b := b ++ msg.data
  let b := b ++ [msg.checksum &&& 0x7F]
  b ++ [0xF7]

/-- Encoding of a `DumpRequest` (appends to `b`). -/
def DumpRequest.Encode (msg : DumpRequest) (b : List Nat) : List Nat :=
  let b := b ++ [0xF0, 0x7E, msg.channel &&& 0x7F, 0x03]
  let b := append14bit b msg.number
  b ++ [0xF7]

/-- Encoding of a `ControlPacket` (appends to `b`). -/
def ControlPacket.Encode (msg : ControlPacket) (b : List Nat) : List Nat :=
  b ++ [0xF0, 0x7E, msg.channel &&& 0x7F, msg.type &&& 0x7F, msg.packetNumber &&& 0x7F, 0xF7]

/-- Dispatch of the `Message.Encode` interface method. -/
def Message.Encode : Message → List Nat → List Nat
  | .header h, b => h.Encode b
  | .data p, b => p.Encode b
  | .request r, b => r.Encode b
  | .control c, b => c.Encode b

/-- Expected total size of an encoded `DumpHeader`. -/
def dumpHeaderSize : Nat := 21

/-- Expected total size of an encoded `DumpRequest`. -/
def dumpRequestSize : Nat := 7

/-- Expected total size of an encoded `DataPacket`. -/
def dataPacketSize : Nat := 127

/-- Expected total size of an encoded `ControlPacket`. -/
def controlPacketSize : Nat := 6

/-- The decode errors of the Go code (`errNotSysex`, `errTooShort` and the
`fmt.Errorf` failures, one constructor per distinct message), plus
`indexOutOfRange`, which models a slice-bounds run-time panic. -/
inductive GoError where
  | notSysex
  | tooShort
  | invalidMessageId (id : Nat)
  | badSizeDumpHeader (n : Nat)
  | badSizeDataPacket (n : Nat)
  | badSizeDumpRequest (n : Nat)
  | badSizeControlPacket (n : Nat)
  | unsupportedBitDepth (n : Nat)
  | indexOutOfRange
  deriving DecidableEq

/-- The sysex start-of-message marker `0xF0 0x7E` (Go variable holding the
expected leading bytes). -/
def sdsPre : List Nat := [0xF0, 0x7E]

/-- `bytes.HasPrefix l p`: does `l` start with the bytes of `p`? -/
def hasPre : List Nat → List Nat → Bool
  | _, [] => true
  | [], _ :: _ => false
  | x :: xs, y :: ys => x == y && hasPre xs ys

/-- `dec14bit` reassembles a 14-bit number from two 7-bit bytes. -/
def dec14bit (l h : Nat) : Nat :=
  (l &&& 0x7F) ||| ((h &&& 0x7F) <<< 7)

/-- `dec20bit` reassembles a 20-bit number from its three byte groups. -/
def dec20bit (l m h : Nat) : Nat :=
  (l &&& 0x7F) ||| ((m &&& 0x7F) <<< 7) ||| ((h &&& 0x3F) <<< 14)

/-- Decoder for `DumpHeader` frames. -/
def decodeDumpHeader (msg : List Nat) : Except GoError Message :=
  if msg.length ≠ dumpHeaderSize then .error (.badSizeDumpHeader msg.length)
  else
    let dec : DumpHeader := {
      channel := msg.getD 2 0
      number := dec14bit (msg.getD 4 0) (msg.getD 5 0)
      bitDepth := msg.getD 6 0
      period := dec20bit (msg.getD 7 0) (msg.getD 8 0) (msg.getD 9 0)
      length := dec20bit (msg.getD 10 0) (msg.getD 11 0) (msg.getD 12 0)
      loopStart := dec20bit (msg.getD 13 0) (msg.getD 14 0) (msg.getD 15 0)
      loopEnd := dec20bit (msg.getD 16 0) (msg.getD 17 0) (msg.getD 18 0)
      loopType := msg.getD 19 0 }
    if dec.bitDepth < 8 ∨ dec.bitDepth > 28 then .error (.unsupportedBitDepth dec.bitDepth)
    else .ok (.header dec)

/-- Decoder for `DataPacket` frames; `copy(dec.Data[:], msg[5:125])` is the
120-byte slice starting at offset 5. -/
def decodeDataPacket (msg : List Nat) : Except GoError Message :=
  if msg.length ≠ dataPacketSize then .error (.badSizeDataPacket msg.length)
  else .ok (.data {
    channel := msg.getD 2 0
    packetNumber := msg.getD 4 0
    data := (msg.drop 5).take 120
    checksum := msg.getD 125 0 })

/-- Decoder for `DumpRequest` frames. -/
def decodeDumpRequest (msg : List Nat) : Except GoError Message :=
  if msg.length ≠ dumpRequestSize then .error (.badSizeDumpRequest msg.length)
  else .ok (.request { channel := msg.getD 2 0, number := dec14bit (msg.getD 4 0) (msg.getD 5 0) })

/-- Decoder for `ControlPacket` frames. -/
def decodeControlPacket (msg : List Nat) : Except GoError Message :=
  if msg.length ≠ controlPacketSize then .error (.badSizeControlPacket msg.length)
  else .ok (.control {
    channel := msg.getD 2 0
    type := msg.getD 3 0
    packetNumber := msg.getD 4 0 })

/-- `Decode` decodes a MIDI SDS message.  The leading `||` of the Go condition
short-circuits, so the trailing-byte access `sysex[len(sysex)-1]` only happens
once the prefix test has succeeded; the sub-ID dispatch `switch sysex[3]` is
rendered as an if-chain. -/
def Decode (sysex : List Nat) : Except GoError Message :=
  if hasPre sysex sdsPre = false then .error .notSysex
  else
    match goIndex sysex (sysex.length - 1) with
    | none => .error .indexOutOfRange
    | some last =>
      if last ≠ 0xF7 then .error .notSysex
      else if sysex.length < 4 then .error .tooShort
      else
        match goIndex sysex 3 with
        | none => .error .indexOutOfRange
        | some id =>
          if id = 0x01 then decodeDumpHeader sysex
          else if id = 0x02 then decodeDataPacket sysex
          else if id = 0x03 then decodeDumpRequest sysex
          else if id = 0x7C ∨ id = 0x7D ∨ id = 0x7E ∨ id = 0x7F then decodeControlPacket sysex
          else .error (.invalidMessageId id)

/-- `ComputeChecksum` returns the computed checksum of the packet.  The Go
loop is `for i := range buf[1 : dataPacketSize-1] { c ^= buf[i] }` with
`c := buf[0]`: the loop variable runs over the 125 indices of the slice
`buf[1:126]` but indexes `buf` itself, so the bytes `buf[0] .. buf[124]` are
folded into an accumulator that starts at `buf[0]`. -/
def DataPacket.ComputeChecksum (msg : DataPacket) : Nat :=
  let buf := msg.Encode []
  let c := (buf.take (dataPacketSize - 1 - 1)).foldl (fun a b => a ^^^ b) (buf.getD 0 0)
  c &&& 0x7F

/-- The two bytes written for one sample by `write2`
(`zero = uint(1) << (bits-1)`, `s = uint(sample) + zero`, then
`byte(s>>shiftH)&0x7F` and `byte(s<<shiftL)&0x7F`). -/
def enc2 (bits : Nat) (sample : Int) : Nat × Nat :=
  let u := (goUintOfInt sample + (1 <<< (bits - 1)) % goWord) % goWord
  ((u >>> (bits - 7)) % 256 &&& 0x7F,
   ((u <<< (14 - bits)) % goWord) % 256 &&& 0x7F)

/-- The three bytes written for one sample by `write3`. -/
def enc3 (bits : Nat) (sample : Int) : Nat × Nat × Nat :=
  let u := (goUintOfInt sample + (1 <<< (bits - 1)) % goWord) % goWord
  ((u >>> (bits - 7)) % 256 &&& 0x7F,
   (u >>> (bits - 14)) % 256 &&& 0x7F,
   ((u <<< (21 - bits)) % goWord) % 256 &&& 0x7F)

/-- The four bytes written for one sample by `write4`. -/
def enc4 (bits : Nat) (sample : Int) : Nat × Nat × Nat × Nat :=
  let u := (goUintOfInt sample + (1 <<< (bits - 1)) % goWord) % goWord
  ((u >>> (bits - 7)) % 256 &&& 0x7F,
   (u >>> (bits - 14)) % 256 &&& 0x7F,
   (u >>> (bits - 21)) % 256 &&& 0x7F,
   ((u <<< (28 - bits)) % goWord) % 256 &&& 0x7F)

/-- The sample reconstructed from one 2-byte group by `read2`
(`v := uint(d0&0x7F)<<shiftH | uint(d1&0x7F)>>shiftL`, result `int(v-zero)`). -/
def dec2s (bits : Nat) (d0 d1 : Nat) : Int :=
  let v := ((d0 &&& 0x7F) <<< (bits - 7)) % goWord ||| (d1 &&& 0x7F) >>> (14 - bits)
  goIntOfUint (goSub v ((1 <<< (bits - 1)) % goWord))

/-- The sample reconstructed from one 3-byte group by `read3`. -/
def dec3s (bits : Nat) (d0 d1 d2 : Nat) : Int :=
  let v := ((d0 &&& 0x7F) <<< (bits - 7)) % goWord
    ||| ((d1 &&& 0x7F) <<< (bits - 14)) % goWord
    ||| (d2 &&& 0x7F) >>> (21 - bits)
  goIntOfUint (goSub v ((1 <<< (bits - 1)) % goWord))

/-- The sample reconstructed from one 4-byte group by `read4`. -/
def dec4s (bits : Nat) (d0 d1 d2 d3 : Nat) : Int :=
  let v := ((d0 &&& 0x7F) <<< (bits - 7)) % goWord
    ||| ((d1 &&& 0x7F) <<< (bits - 14)) % goWord
    ||| ((d2 &&& 0x7F) <<< (bits - 21)) % goWord
    ||| (d3 &&& 0x7F) >>> (28 - bits)
  goIntOfUint (goSub v ((1 <<< (bits - 1)) % goWord))

/-- The `write2` loop: encode samples while both samples and room remain
(2 bytes each, `slots` groups of room), then zero the remainder of the data
array; the unconsumed samples are returned. -/
def write2Loop (bits : Nat) : List Int → Nat → List Nat × List Int
  | samples, 0 => ([], samples)
  | [], n + 1 => (List.replicate (2 * (n + 1)) 0, [])
  | s :: rest, n + 1 =>
    ((enc2 bits s).1 :: (enc2 bits s).2 :: (write2Loop bits rest n).1,
     (write2Loop bits rest n).2)

/-- The `write3` loop (3 bytes per sample). -/
def write3Loop (bits : Nat) : List Int → Nat → List Nat × List Int
  | samples, 0 => ([], samples)
  | [], n + 1 => (List.replicate (3 * (n + 1)) 0, [])
  | s :: rest, n + 1 =>
    ((enc3 bits s).1 :: (enc3 bits s).2.1 :: (enc3 bits s).2.2 :: (write3Loop bits rest n).1,
     (write3Loop bits rest n).2)

/-- The `write4` loop (4 bytes per sample). -/
def write4Loop (bits : Nat) : List Int → Nat → List Nat × List Int
  | samples, 0 => ([], samples)
  | [], n + 1 => (List.replicate (4 * (n + 1)) 0, [])
  | s :: rest, n + 1 =>
    ((enc4 bits s).1 :: (enc4 bits s).2.1 :: (enc4 bits s).2.2.1 :: (enc4 bits s).2.2.2 ::
      (write4Loop bits rest n).1,
     (write4Loop bits rest n).2)

/-- The `read2` loop: decode consecutive 2-byte groups of the data array
(`for i := 0; i < len(msg.Data); i += 2`). -/
def read2Loop (bits : Nat) : List Nat → List Int
  | d0 :: d1 :: rest => dec2s bits d0 d1 :: read2Loop bits rest
  | _ => []

/-- The `read3` loop (3-byte groups). -/
def read3Loop (bits : Nat) : List Nat → List Int
  | d0 :: d1 :: d2 :: rest => dec3s bits d0 d1 d2 :: read3Loop bits rest
  | _ => []

/-- The `read4` loop (4-byte groups). -/
def read4Loop (bits : Nat) : List Nat → List Int
  | d0 :: d1 :: d2 :: d3 :: rest => dec4s bits d0 d1 d2 d3 :: read4Loop bits rest
  | _ => []

/-- `read2` appends the decoded samples of the packet to `out`. -/
def DataPacket.read2 (msg : DataPacket) (out : List Int) (bits : Nat) : List Int :=
  out ++ read2Loop bits msg.data

/-- `read3` appends the decoded samples of the packet to `out`. -/
def DataPacket.read3 (msg : DataPacket) (out : List Int) (bits : Nat) : List Int :=
  out ++ read3Loop bits msg.data

/-- `read4` appends the decoded samples of the packet to `out`. -/
def DataPacket.read4 (msg : DataPacket) (out : List Int) (bits : Nat) : List Int :=
  out ++ read4Loop bits msg.data

/-- `write2` overwrites the 120-byte data array (60 two-byte groups) and
returns the remaining samples. -/
def DataPacket.write2 (msg : DataPacket) (samples : List Int) (bits : Nat) :
    DataPacket × List Int :=
  ({ msg with data := (write2Loop bits samples (dataLen / 2)).1 },
   (write2Loop bits samples (dataLen / 2)).2)

/-- `write3` overwrites the 120-byte data array (40 three-byte groups). -/
def DataPacket.write3 (msg : DataPacket) (samples : List Int) (bits : Nat) :
    DataPacket × List Int :=
  ({ msg with data := (write3Loop bits samples (dataLen / 3)).1 },
   (write3Loop bits samples (dataLen / 3)).2)

/-- `write4` overwrites the 120-byte data array (30 four-byte groups). -/
def DataPacket.write4 (msg : DataPacket) (samples : List Int) (bits : Nat) :
    DataPacket × List Int :=
  ({ msg with data := (write4Loop bits samples (dataLen / 4)).1 },
   (write4Loop bits samples (dataLen / 4)).2)

/-- `GetSamples` decodes the sample data in the packet and appends it to `s`.
The Go `switch` panics for bit depths below 8 or above 28. -/
def DataPacket.GetSamples (msg : DataPacket) (s : List Int) (bitDepth : Int) :
    Except GoPanic (List Int) :=
  if bitDepth < 8 then .error ⟨"bit depth < 8 is not supported"⟩
  else if bitDepth ≤ 14 then .ok (msg.read2 s bitDepth.toNat)
  else if bitDepth ≤ 21 then .ok (msg.read3 s bitDepth.toNat)
  else if bitDepth ≤ 28 then .ok (msg.read4 s bitDepth.toNat)
  else .error ⟨"bit depth > 28 is not supported"⟩

/-- `SetSamples` copies sample data into the packet and returns the remaining
samples.  The Go `switch` panics for bit depths below 8 or above 28. -/
def DataPacket.SetSamples (msg : DataPacket) (samples : List Int) (bitDepth : Int) :
    Except GoPanic (DataPacket × List Int) :=
  if bitDepth < 8 then .error ⟨"bit depth < 8 is not supported"⟩
  else if bitDepth ≤ 14 then .ok (msg.write2 samples bitDepth.toNat)
  else if bitDepth ≤ 21 then .ok (msg.write3 samples bitDepth.toNat)
  else if bitDepth ≤ 28 then .ok (msg.write4 samples bitDepth.toNat)
  else .error ⟨"bit depth > 28 is not supported"⟩

/-- Transfer session state (`SendOp`). -/
structure SendOp where
  length : Int
  bitDepth : Int
  samples : List Int
  data : DataPacket
  num : Nat
  deriving DecidableEq

/-- `NewSendOp` stamps the header with the buffer length and builds the
session; the scratch packet starts as the Go zero value with the channel set. -/
def NewSendOp (samples : List Int) (h : DumpHeader) : SendOp × DumpHeader :=
  let h2 := { h with length := samples.length }
  ({ length := (samples.length : Int)
     bitDepth := (h2.bitDepth : Int)
     samples := samples
     data := { channel := h2.channel, packetNumber := 0, data := List.replicate dataLen 0,
               checksum := 0 }
     num := 0 }, h2)

/-- `Done` returns true when the complete waveform has been sent. -/
def SendOp.Done (s : SendOp) : Bool := s.samples.length == 0

/-- `nextNumber` post-increments the sequence counter, wrapping 127 to 0. -/
def SendOp.nextNumber (s : SendOp) : Nat × SendOp :=
  let n := s.num
  if n ≥ 127 then (n, { s with num := 0 }) else (n, { s with num := n + 1 })

/-- `NextMessage` returns the next message to be sent (`none` models the `nil`
return once the transfer is done): pack the next samples into the scratch
packet, assign the next sequence number, recompute the checksum. -/
def SendOp.NextMessage (s : SendOp) : Except GoPanic (Option DataPacket × SendOp) :=
  if s.Done then .ok (none, s)
  else
    match s.data.SetSamples s.samples s.bitDepth with
    | .error p => .error p
    | .ok (d1, rem) =>
      let (n, s1) := SendOp.nextNumber { s with samples := rem, data := d1 }
      let d2 := { d1 with packetNumber := n }
      let d3 := { d2 with checksum := d2.ComputeChecksum }
      .ok (some d3, { s1 with data := d3 })

/-- Packet numbers produced by `count` successive `NextMessage` calls
(`none` for a call that returned `nil`). -/
def runPacketNumbers (s : SendOp) : Nat → Except GoPanic (List (Option Nat))
  | 0 => .ok []
  | n + 1 =>
    match s.NextMessage with
    | .error p => .error p
    | .ok (m, s1) =>
      match runPacketNumbers s1 n with
      | .error p => .error p
      | .ok rest => .ok ((m.map fun d => d.packetNumber) :: rest)

/-- State of the `transferData` loop in the handshake controller. -/
structure LoopState where
  op : SendOp
  waiting : Bool
  deriving DecidableEq

/-- Result of one iteration of the `transferData` loop. -/
inductive StepResult where
  | looped (sent : Option DataPacket) (st : LoopState)
  | finished
  | fatalNak (packetNumber : Nat)
  | fatalCancel
  deriving DecidableEq

/-- One iteration of the `transferData` loop: exit if the transfer is done;
otherwise send the next packet unless waiting, then interpret the received
message (`none` models a receive timeout).  A control packet on another
channel is skipped (`continue`); a matching one first clears the waiting flag
and then dispatches on its type (Nak and Cancel are fatal, Wait re-arms the
waiting flag). -/
def transferDataStep (ch : Nat) (st : LoopState) (received : Option Message) :
    Except GoPanic StepResult :=
  if st.op.Done then .ok .finished
  else
    match (if st.waiting then Except.ok (none, st.op) else st.op.NextMessage) with
    | .error p => .error p
    | .ok (sent, op1) =>
      match received with
      | some (.control c) =>
        if c.channel ≠ ch then .ok (.looped sent { op := op1, waiting := st.waiting })
        else if c.type = Ack then .ok (.looped sent { op := op1, waiting := false })
        else if c.type = Nak then .ok (.fatalNak c.packetNumber)
        else if c.type = Cancel then .ok .fatalCancel
        else if c.type = Wait then .ok (.looped sent { op := op1, waiting := true })
        else .ok (.looped sent { op := op1, waiting := false })
      | _ => .ok (.looped sent { op := op1, waiting := st.waiting })

/-- Outcome of running the `transferData` loop on a list of received events. -/
inductive LoopOutcome where
  | running (st : LoopState)
  | finished
  | fatalNak (packetNumber : Nat)
  | fatalCancel
  deriving DecidableEq

/-- Run the `transferData` loop over a list of receive events, collecting the
data packets that were sent. -/
def runTransferData (ch : Nat) (st : LoopState) :
    List (Option Message) → Except GoPanic (List DataPacket × LoopOutcome)
  | [] => .ok ([], .running st)
  | e :: es =>
    match transferDataStep ch st e with
    | .error p => .error p
    | .ok .finished => .ok ([], .finished)
    | .ok (.fatalNak k) => .ok ([], .fatalNak k)
    | .ok .fatalCancel => .ok ([], .fatalCancel)
    | .ok (.looped sent st1) =>
      match runTransferData ch st1 es with
      | .error p => .error p
      | .ok (sends, out) => .ok (sent.toList ++ sends, out)

/-- Follows the spec's words for the checksum (claim C1): the XOR-fold of
every encoded byte of the packet from the leading `0xF0` (index 0) through the
last payload byte (index 124), masked to 7 bits. -/
def specChecksumFromF0 (msg : DataPacket) : Nat :=
  (((msg.Encode []).take 125).foldl (fun a b => a ^^^ b) 0) &&& 0x7F

/-- The amended checksum description: the XOR-fold of the encoded bytes from
the `0x7E` byte (index 1) through the last payload byte (index 124) — the
leading `0xF0` is not covered — masked to 7 bits. -/
def specChecksumFrom7E (msg : DataPacket) : Nat :=
  ((((msg.Encode []).take 125).drop 1).foldl (fun a b => a ^^^ b) 0) &&& 0x7F

/-- The error of a decode result, if any. -/
def errOf : Except GoError Message → Option GoError
  | .error e => some e
  | .ok _ => none

/-- Follows the spec's words for the decode error discipline (claim C6):
missing `0xF0 0x7E` prefix or trailing `0xF7` fails `NotSysex`; then length
below 4 fails `TooShort`; then the sub-ID byte dispatches (`0x01` header,
`0x02` data packet, `0x03` dump request, `0x7C`-`0x7F` control packet,
anything else `UnknownMessageType`); the variant decoders fail `BadSize`
unless the length is exactly 21/127/7/6; the header decoder fails
`UnsupportedBitDepth` unless the bit depth lies in `[8, 28]`. -/
def specDecodeError (sysex : List Nat) : Option GoError :=
  if hasPre sysex sdsPre = false ∨ sysex.getD (sysex.length - 1) 0 ≠ 0xF7 then
    some .notSysex
  else if sysex.length < 4 then some .tooShort
  else if sysex.getD 3 0 = 0x01 then
    if sysex.length ≠ 21 then some (.badSizeDumpHeader sysex.length)
    else if sysex.getD 6 0 < 8 ∨ sysex.getD 6 0 > 28 then
      some (.unsupportedBitDepth (sysex.getD 6 0))
    else none
  else if sysex.getD 3 0 = 0x02 then
    if sysex.length ≠ 127 then some (.badSizeDataPacket sysex.length) else none
  else if sysex.getD 3 0 = 0x03 then
    if sysex.length ≠ 7 then some (.badSizeDumpRequest sysex.length) else none
  else if sysex.getD 3 0 = 0x7C ∨ sysex.getD 3 0 = 0x7D ∨ sysex.getD 3 0 = 0x7E ∨
      sysex.getD 3 0 = 0x7F then
    if sysex.length ≠ 6 then some (.badSizeControlPacket sysex.length) else none
  else some (.invalidMessageId (sysex.getD 3 0))

/-- A decode result is regular when it is a message or a decode error, not the
out-of-bounds indexing panic. -/
def regularResult : Except GoError Message → Bool
  | .error .indexOutOfRange => false
  | _ => true

/-- An event of the data loop that clears the waiting state: an `Ack`, `Nak`
or `Cancel` control packet on the matching channel. -/
def isClearingCtl (ch : Nat) : Option Message → Bool
  | some (.control c) =>
    c.channel == ch && (c.type == Ack || c.type == Nak || c.type == Cancel)
  | _ => false

/-- A received event is well formed when any control packet in it carries one
of the four protocol control types (`Decode` only ever produces these). -/
def wfCtl : Option Message → Bool
  | some (.control c) =>
    c.type == Ack || c.type == Nak || c.type == Cancel || c.type == Wait
  | _ => true

/-- Decidable equality for `Except` results (used to evaluate witnesses). -/
instance exceptDecEq {ε α : Type} [DecidableEq ε] [DecidableEq α] :
    DecidableEq (Except ε α) := fun a b =>
  match a, b with
  | .ok x, .ok y =>
    if h : x = y then isTrue (by rw [h]) else isFalse fun c => h (Except.ok.inj c)
  | .error x, .error y =>
    if h : x = y then isTrue (by rw [h]) else isFalse fun c => h (Except.error.inj c)
  | .ok _, .error _ => isFalse fun c => Except.noConfusion c
  | .error _, .ok _ => isFalse fun c => Except.noConfusion c

/-- Capacity in samples of one data packet at bit depth `d` (claim-level
quantity: 60, 40 or 30 samples for the three byte-group sizes). -/
def capacity (d : Int) : Nat := if d ≤ 14 then 60 else if d ≤ 21 then 40 else 30

/-- Bytes per sample group at bit depth `d` (claim-level quantity). -/
def groupBytes (d : Int) : Nat := if d ≤ 14 then 2 else if d ≤ 21 then 3 else 4

/-- A message whose numeric fields lie within their declared bit widths.  For
control packets the type must be one of the four protocol types
`0x7C`-`0x7F` (the amended condition of claim C5: an arbitrary 7-bit control
type does not survive the sub-ID dispatch of `Decode`). -/
def WellFormed : Message → Prop
  | .header h => h.channel < 2 ^ 7 ∧ h.number < 2 ^ 14 ∧ 8 ≤ h.bitDepth ∧ h.bitDepth ≤ 28 ∧
      h.period < 2 ^ 20 ∧ h.length < 2 ^ 20 ∧ h.loopStart < 2 ^ 20 ∧ h.loopEnd < 2 ^ 20 ∧
      h.loopType < 2 ^ 7
  | .data p => p.channel < 2 ^ 7 ∧ p.packetNumber < 2 ^ 7 ∧ p.data.length = 120 ∧
      p.checksum < 2 ^ 7
  | .request r => r.channel < 2 ^ 7 ∧ r.number < 2 ^ 14
  | .control c => c.channel < 2 ^ 7 ∧ c.packetNumber < 2 ^ 7 ∧
      (c.type = Ack ∨ c.type = Nak ∨ c.type = Cancel ∨ c.type = Wait)

theorem and127 (x : Nat) : x &&& 0x7F = x % 128 := by
  simpa using Nat.and_pow_two_sub_one_eq_mod x 7

theorem and63 (x : Nat) : x &&& 0x3F = x % 64 := by
  simpa using Nat.and_pow_two_sub_one_eq_mod x 6

theorem mod256_and127 (x : Nat) : x % 256 &&& 0x7F = x % 128 := by
  rw [and127]
  exact Nat.mod_mod_of_dvd x (by norm_num)

theorem pow_lt_goWord {k : Nat} (h : k < 64) : 2 ^ k < goWord :=
  Nat.pow_lt_pow_right one_lt_two h

/-- Adding a small nonnegative offset to a small signed value under Go `uint`
conversion is plain integer addition. -/
theorem goUintAdd (s : Int) (z : Nat) (hz : z ≤ 2 ^ 62) (h1 : -(z : Int) ≤ s)
    (h2 : s < 2 ^ 62) : (goUintOfInt s + z) % goWord = (s + z).toNat := by
  unfold goUintOfInt goWord
  have e1 : (2 : Int) ^ 64 = 18446744073709551616 := by norm_num
  have e2 : (2 : Nat) ^ 64 = 18446744073709551616 := by norm_num
  have e3 : (2 : Int) ^ 62 = 4611686018427387904 := by norm_num
  rw [e1, e2]
  rw [e1] at *
  omega

/-- Go `int(v - zero)` for small `v` and `zero` is plain integer subtraction. -/
theorem goSubInt (n z : Nat) (hn : n < 2 ^ 62) (hz : z ≤ 2 ^ 62) :
    goIntOfUint (goSub n z) = (n : Int) - z := by
  unfold goIntOfUint goSub goWord
  have e2 : (2 : Nat) ^ 64 = 18446744073709551616 := by norm_num
  have e3 : (2 : Nat) ^ 63 = 9223372036854775808 := by norm_num
  have e4 : (2 : Nat) ^ 62 = 4611686018427387904 := by norm_num
  rw [e2, e3] at *
  rw [e4] at hn hz
  split <;> omega

/-- Joining the top digit back onto the low bits: `2^k * (n / 2^k) ||| n % 2^k = n`. -/
theorem or_digit0 (n k : Nat) : (2 ^ k * (n / 2 ^ k)) ||| n % 2 ^ k = n := by
  rw [← Nat.mul_add_lt_is_or (Nat.mod_lt n (Nat.pos_pow_of_pos k (by norm_num))) _]
  exact Nat.div_add_mod n (2 ^ k)

/-- Joining one 7-bit middle digit onto the value above it. -/
theorem or_digit (n k : Nat) :
    (2 ^ (k + 7) * (n / 2 ^ (k + 7))) ||| (n / 2 ^ k % 2 ^ 7) * 2 ^ k =
      2 ^ k * (n / 2 ^ k) := by
  have hlt : (n / 2 ^ k % 2 ^ 7) * 2 ^ k < 2 ^ (k + 7) := by
    have h1 : n / 2 ^ k % 2 ^ 7 < 2 ^ 7 := Nat.mod_lt _ (by norm_num)
    calc (n / 2 ^ k % 2 ^ 7) * 2 ^ k < 2 ^ 7 * 2 ^ k :=
          mul_lt_mul_of_pos_right h1 (by positivity)
    _ = 2 ^ (k + 7) := by rw [← Nat.pow_add, Nat.add_comm]
  rw [← Nat.mul_add_lt_is_or hlt _]
  have hd : n / 2 ^ (k + 7) = n / 2 ^ k / 2 ^ 7 := by
    rw [Nat.div_div_eq_div_mul, ← Nat.pow_add]
  rw [hd, Nat.pow_add]
  set m := n / 2 ^ k with hm
  calc 2 ^ k * 2 ^ 7 * (m / 2 ^ 7) + m % 2 ^ 7 * 2 ^ k
      = 2 ^ k * (2 ^ 7 * (m / 2 ^ 7) + m % 2 ^ 7) := by ring
    _ = 2 ^ k * m := by rw [Nat.div_add_mod]

/-- The shifted high byte of an encoded sample recovers the top 7 bits. -/
theorem hiByte (n b : Nat) (hb : 7 ≤ b) (hn : n < 2 ^ b) :
    (n >>> (b - 7)) % 256 &&& 0x7F = n / 2 ^ (b - 7) := by
  rw [Nat.shiftRight_eq_div_pow, mod256_and127]
  have hdiv : n / 2 ^ (b - 7) < 2 ^ 7 := by
    rw [Nat.div_lt_iff_lt_mul (Nat.pos_pow_of_pos _ (by norm_num)), ← Nat.pow_add]
    have : b - 7 + 7 = b := by omega
    rw [Nat.add_comm, this]
    exact hn
  exact Nat.mod_eq_of_lt (by simpa using hdiv)

/-- A shifted middle byte of an encoded sample is a 7-bit slice of its bits. -/
theorem midByte (n k : Nat) : (n >>> k) % 256 &&& 0x7F = n / 2 ^ k % 2 ^ 7 := by
  rw [Nat.shiftRight_eq_div_pow, mod256_and127]
  norm_num

/-- The left-shifted low byte of an encoded sample holds its bottom bits. -/
theorem loByte (n p : Nat) (hp : p ≤ 7) (hn : n < 2 ^ 28) :
    ((n <<< p) % goWord) % 256 &&& 0x7F = n % 2 ^ (7 - p) * 2 ^ p := by
  have hlt : n * 2 ^ p < goWord := by
    calc n * 2 ^ p < 2 ^ 28 * 2 ^ p := mul_lt_mul_of_pos_right hn (by positivity)
    _ ≤ 2 ^ 28 * 2 ^ 7 := Nat.mul_le_mul_left _ (Nat.pow_le_pow_right (by norm_num) hp)
    _ < goWord := by unfold goWord; norm_num
  rw [Nat.shiftLeft_eq, Nat.mod_eq_of_lt hlt, mod256_and127]
  have h128 : (128 : Nat) = 2 ^ (7 - p) * 2 ^ p := by
    rw [← Nat.pow_add, show 7 - p + p = 7 from by omega]
  rw [h128, Nat.mul_mod_mul_right]

/-- A decoder-side shift of a 7-bit byte stays below the word size. -/
theorem decShift (x k : Nat) (hx : x < 2 ^ 7) (hk : k ≤ 28) :
    ((x &&& 0x7F) <<< k) % goWord = x * 2 ^ k := by
  rw [and127, Nat.mod_eq_of_lt (show x < 128 by simpa using hx), Nat.shiftLeft_eq,
    Nat.mod_eq_of_lt]
  calc x * 2 ^ k < 2 ^ 7 * 2 ^ k := mul_lt_mul_of_pos_right hx (by positivity)
  _ ≤ 2 ^ 7 * 2 ^ 28 := Nat.mul_le_mul_left _ (Nat.pow_le_pow_right (by norm_num) hk)
  _ < goWord := by unfold goWord; norm_num

/-- The value packed by the bit packer for an in-range sample. -/
theorem packedValue (b : Nat) (s : Int) (hb1 : 8 ≤ b) (hb2 : b ≤ 28)
    (h1 : -(2 ^ (b - 1) : Int) ≤ s) (h2 : s < 2 ^ (b - 1)) :
    (goUintOfInt s + (1 <<< (b - 1)) % goWord) % goWord = (s + 2 ^ (b - 1)).toNat ∧
      (s + 2 ^ (b - 1)).toNat < 2 ^ b := by
  have hz : (1 <<< (b - 1)) % goWord = 2 ^ (b - 1) := by
    rw [Nat.shiftLeft_eq, one_mul, Nat.mod_eq_of_lt (pow_lt_goWord (by omega))]
  have hcast : ((2 ^ (b - 1) : Nat) : Int) = 2 ^ (b - 1) := by push_cast; ring
  have hble : (2 : Int) ^ (b - 1) ≤ 2 ^ 62 := pow_le_pow_right₀ one_le_two (by omega)
  constructor
  · rw [hz, goUintAdd s (2 ^ (b - 1))]
    · rw [hcast]
    · have : ((2 ^ (b - 1) : Nat) : Int) ≤ 2 ^ 62 := by rw [hcast]; exact hble
      exact_mod_cast this
    · rw [hcast]; exact h1
    · exact lt_of_lt_of_le h2 hble
  · have hsum : s + (2 : Int) ^ (b - 1) < 2 ^ b := by
      have he : (2 : Int) ^ b = 2 ^ (b - 1) + 2 ^ (b - 1) := by
        rw [← two_mul, ← pow_succ']
        congr 1
        omega
      rw [he]
      linarith
    have hnn : 0 ≤ s + (2 : Int) ^ (b - 1) := by linarith
    rw [Int.toNat_lt hnn]
    push_cast
    exact hsum

/-- Round trip of one sample through the 2-byte group codec. -/
theorem dec2s_enc2 (b : Nat) (s : Int) (hb1 : 8 ≤ b) (hb2 : b ≤ 14)
    (h1 : -(2 ^ (b - 1) : Int) ≤ s) (h2 : s < 2 ^ (b - 1)) :
    dec2s b (enc2 b s).1 (enc2 b s).2 = s := by
  obtain ⟨hu, hn⟩ := packedValue b s hb1 (by omega) h1 h2
  simp only [enc2, dec2s, hu]
  set n := (s + 2 ^ (b - 1)).toNat with hndef
  have hb7 : b - 7 + (14 - b) = 7 := by omega
  have e0 := hiByte n b (by omega) hn
  have e1 := loByte n (14 - b) (by omega) (lt_trans hn (by
    exact Nat.pow_lt_pow_right one_lt_two (by omega)))
  have h7 : 7 - (14 - b) = b - 7 := by omega
  rw [h7] at e1
  rw [e0, e1]
  have hd0 : n / 2 ^ (b - 7) < 2 ^ 7 := by
    rw [Nat.div_lt_iff_lt_mul (Nat.pos_pow_of_pos _ (by norm_num)), ← Nat.pow_add]
    have : b - 7 + 7 = b := by omega
    rw [Nat.add_comm, this]
    exact hn
  rw [decShift _ _ hd0 (by omega), and127]
  have hd1 : n % 2 ^ (b - 7) * 2 ^ (14 - b) < 128 := by
    have : n % 2 ^ (b - 7) < 2 ^ (b - 7) := Nat.mod_lt _ (by positivity)
    calc n % 2 ^ (b - 7) * 2 ^ (14 - b) < 2 ^ (b - 7) * 2 ^ (14 - b) :=
        mul_lt_mul_of_pos_right this (by positivity)
    _ = 128 := by rw [← Nat.pow_add, hb7]
  rw [Nat.mod_eq_of_lt hd1, Nat.shiftRight_eq_div_pow,
    Nat.mul_div_cancel _ (Nat.pos_pow_of_pos _ (by norm_num))]
  rw [mul_comm, or_digit0 n (b - 7)]
  have hz : (1 <<< (b - 1)) % goWord = 2 ^ (b - 1) := by
    rw [Nat.shiftLeft_eq, one_mul, Nat.mod_eq_of_lt (pow_lt_goWord (by omega))]
  rw [hz, goSubInt n _ (lt_trans hn (Nat.pow_lt_pow_right one_lt_two (by omega)))
    (Nat.pow_le_pow_right (by norm_num) (by omega))]
  have hnn : 0 ≤ s + (2 : Int) ^ (b - 1) := by linarith
  rw [hndef, Int.toNat_of_nonneg hnn]
  push_cast
  ring

/-- Round trip of one sample through the 3-byte group codec. -/
theorem dec3s_enc3 (b : Nat) (s : Int) (hb1 : 15 ≤ b) (hb2 : b ≤ 21)
    (h1 : -(2 ^ (b - 1) : Int) ≤ s) (h2 : s < 2 ^ (b - 1)) :
    dec3s b (enc3 b s).1 (enc3 b s).2.1 (enc3 b s).2.2 = s := by
  obtain ⟨hu, hn⟩ := packedValue b s (by omega) (by omega) h1 h2
  simp only [enc3, dec3s, hu]
  set n := (s + 2 ^ (b - 1)).toNat with hndef
  have hn28 : n < 2 ^ 28 := lt_of_lt_of_le hn (Nat.pow_le_pow_right (by norm_num) (by omega))
  have e0 := hiByte n b (by omega) hn
  have e1 := midByte n (b - 14)
  have e2 := loByte n (21 - b) (by omega) hn28
  have h7 : 7 - (21 - b) = b - 14 := by omega
  rw [h7] at e2
  rw [e0, e1, e2]
  have hd0 : n / 2 ^ (b - 7) < 2 ^ 7 := by
    rw [Nat.div_lt_iff_lt_mul (Nat.pos_pow_of_pos _ (by norm_num)), ← Nat.pow_add]
    have hb7b : b - 7 + 7 = b := by omega
    rw [Nat.add_comm, hb7b]
    exact hn
  have hd1 : n / 2 ^ (b - 14) % 2 ^ 7 < 2 ^ 7 := Nat.mod_lt _ (by norm_num)
  have hd2 : n % 2 ^ (b - 14) * 2 ^ (21 - b) < 2 ^ 7 := by
    calc n % 2 ^ (b - 14) * 2 ^ (21 - b) < 2 ^ (b - 14) * 2 ^ (21 - b) :=
        mul_lt_mul_of_pos_right (Nat.mod_lt _ (by positivity)) (by positivity)
    _ = 2 ^ 7 := by rw [← Nat.pow_add, show b - 14 + (21 - b) = 7 from by omega]
  have e2s : (n % 2 ^ (b - 14) * 2 ^ (21 - b) &&& 0x7F) >>> (21 - b) = n % 2 ^ (b - 14) := by
    rw [and127, Nat.mod_eq_of_lt (by simpa using hd2), Nat.shiftRight_eq_div_pow,
      Nat.mul_div_cancel _ (Nat.pos_pow_of_pos _ (by norm_num))]
  rw [decShift _ _ hd0 (by omega), decShift _ _ hd1 (by omega), e2s]
  rw [mul_comm (n / 2 ^ (b - 7)) _, show b - 7 = b - 14 + 7 from by omega,
    or_digit n (b - 14), or_digit0 n (b - 14)]
  have hz : (1 <<< (b - 1)) % goWord = 2 ^ (b - 1) := by
    rw [Nat.shiftLeft_eq, one_mul, Nat.mod_eq_of_lt (pow_lt_goWord (by omega))]
  rw [hz, goSubInt n _ (lt_trans hn28 (by norm_num))
    (Nat.pow_le_pow_right (by norm_num) (by omega))]
  have hnn : 0 ≤ s + (2 : Int) ^ (b - 1) := by linarith
  rw [hndef, Int.toNat_of_nonneg hnn]
  push_cast
  ring

/-- Round trip of one sample through the 4-byte group codec. -/
theorem dec4s_enc4 (b : Nat) (s : Int) (hb1 : 22 ≤ b) (hb2 : b ≤ 28)
    (h1 : -(2 ^ (b - 1) : Int) ≤ s) (h2 : s < 2 ^ (b - 1)) :
    dec4s b (enc4 b s).1 (enc4 b s).2.1 (enc4 b s).2.2.1 (enc4 b s).2.2.2 = s := by
  obtain ⟨hu, hn⟩ := packedValue b s (by omega) (by omega) h1 h2
  simp only [enc4, dec4s, hu]
  set n := (s + 2 ^ (b - 1)).toNat with hndef
  have hn28 : n < 2 ^ 28 := lt_of_lt_of_le hn (Nat.pow_le_pow_right (by norm_num) (by omega))
  have e0 := hiByte n b (by omega) hn
  have e1 := midByte n (b - 14)
  have e15 := midByte n (b - 21)
  have e2 := loByte n (28 - b) (by omega) hn28
  have h7 : 7 - (28 - b) = b - 21 := by omega
  rw [h7] at e2
  rw [e0, e1, e15, e2]
  have hd0 : n / 2 ^ (b - 7) < 2 ^ 7 := by
    rw [Nat.div_lt_iff_lt_mul (Nat.pos_pow_of_pos _ (by norm_num)), ← Nat.pow_add]
    have hb7b : b - 7 + 7 = b := by omega
    rw [Nat.add_comm, hb7b]
    exact hn
  have hd1 : n / 2 ^ (b - 14) % 2 ^ 7 < 2 ^ 7 := Nat.mod_lt _ (by norm_num)
  have hd15 : n / 2 ^ (b - 21) % 2 ^ 7 < 2 ^ 7 := Nat.mod_lt _ (by norm_num)
  have hd2 : n % 2 ^ (b - 21) * 2 ^ (28 - b) < 2 ^ 7 := by
    calc n % 2 ^ (b - 21) * 2 ^ (28 - b) < 2 ^ (b - 21) * 2 ^ (28 - b) :=
        mul_lt_mul_of_pos_right (Nat.mod_lt _ (by positivity)) (by positivity)
    _ = 2 ^ 7 := by rw [← Nat.pow_add, show b - 21 + (28 - b) = 7 from by omega]
  have e2s : (n % 2 ^ (b - 21) * 2 ^ (28 - b) &&& 0x7F) >>> (28 - b) = n % 2 ^ (b - 21) := by
    rw [and127, Nat.mod_eq_of_lt (by simpa using hd2), Nat.shiftRight_eq_div_pow,
      Nat.mul_div_cancel _ (Nat.pos_pow_of_pos _ (by norm_num))]
  rw [decShift _ _ hd0 (by omega), decShift _ _ hd1 (by omega), decShift _ _ hd15 (by omega),
    e2s]
  rw [mul_comm (n / 2 ^ (b - 7)) _, show b - 7 = b - 14 + 7 from by omega,
    or_digit n (b - 14), show b - 14 = b - 21 + 7 from by omega,
    or_digit n (b - 21), or_digit0 n (b - 21)]
  have hz : (1 <<< (b - 1)) % goWord = 2 ^ (b - 1) := by
    rw [Nat.shiftLeft_eq, one_mul, Nat.mod_eq_of_lt (pow_lt_goWord (by omega))]
  rw [hz, goSubInt n _ (lt_trans hn28 (by norm_num))
    (Nat.pow_le_pow_right (by norm_num) (by omega))]
  have hnn : 0 ≤ s + (2 : Int) ^ (b - 1) := by linarith
  rw [hndef, Int.toNat_of_nonneg hnn]
  push_cast
  ring

theorem write2Loop_snd (b : Nat) (samples : List Int) (slots : Nat) :
    (write2Loop b samples slots).2 = samples.drop slots := by
  induction slots generalizing samples with
  | zero => simp [write2Loop]
  | succ n ih =>
    cases samples with
    | nil => simp [write2Loop]
    | cons s rest => simp [write2Loop, ih]

theorem write3Loop_snd (b : Nat) (samples : List Int) (slots : Nat) :
    (write3Loop b samples slots).2 = samples.drop slots := by
  induction slots generalizing samples with
  | zero => simp [write3Loop]
  | succ n ih =>
    cases samples with
    | nil => simp [write3Loop]
    | cons s rest => simp [write3Loop, ih]

theorem write4Loop_snd (b : Nat) (samples : List Int) (slots : Nat) :
    (write4Loop b samples slots).2 = samples.drop slots := by
  induction slots generalizing samples with
  | zero => simp [write4Loop]
  | succ n ih =>
    cases samples with
    | nil => simp [write4Loop]
    | cons s rest => simp [write4Loop, ih]

theorem read2Loop_replicate (b m : Nat) :
    read2Loop b (List.replicate (2 * m) 0) = List.replicate m (dec2s b 0 0) := by
  induction m with
  | zero => simp [read2Loop]
  | succ k ih =>
    rw [show 2 * (k + 1) = 2 * k + 1 + 1 from by ring, List.replicate_succ,
      List.replicate_succ, read2Loop, ih, List.replicate_succ]

theorem read3Loop_replicate (b m : Nat) :
    read3Loop b (List.replicate (3 * m) 0) = List.replicate m (dec3s b 0 0 0) := by
  induction m with
  | zero => simp [read3Loop]
  | succ k ih =>
    rw [show 3 * (k + 1) = 3 * k + 1 + 1 + 1 from by ring, List.replicate_succ,
      List.replicate_succ, List.replicate_succ, read3Loop, ih, List.replicate_succ]

theorem read4Loop_replicate (b m : Nat) :
    read4Loop b (List.replicate (4 * m) 0) = List.replicate m (dec4s b 0 0 0 0) := by
  induction m with
  | zero => simp [read4Loop]
  | succ k ih =>
    rw [show 4 * (k + 1) = 4 * k + 1 + 1 + 1 + 1 from by ring, List.replicate_succ,
      List.replicate_succ, List.replicate_succ, List.replicate_succ, read4Loop, ih,
      List.replicate_succ]

theorem read2_write2Loop (b : Nat) (hb1 : 8 ≤ b) (hb2 : b ≤ 14) (samples : List Int)
    (slots : Nat) (hr : ∀ s ∈ samples, -(2 ^ (b - 1) : Int) ≤ s ∧ s < 2 ^ (b - 1)) :
    read2Loop b (write2Loop b samples slots).1 =
      samples.take slots ++ List.replicate (slots - samples.length) (dec2s b 0 0) := by
  induction slots generalizing samples with
  | zero => simp [write2Loop, read2Loop]
  | succ n ih =>
    cases samples with
    | nil =>
      simp only [write2Loop, List.take_nil, List.length_nil, Nat.sub_zero, List.nil_append]
      exact read2Loop_replicate b (n + 1)
    | cons s rest =>
      have hs := hr s (by simp)
      have hrest : ∀ x ∈ rest, -(2 ^ (b - 1) : Int) ≤ x ∧ x < 2 ^ (b - 1) :=
        fun x hx => hr x (List.mem_cons_of_mem _ hx)
      simp only [write2Loop, read2Loop]
      rw [dec2s_enc2 b s hb1 hb2 hs.1 hs.2, ih rest hrest]
      simp only [List.take_succ_cons, List.length_cons, Nat.succ_sub_succ, List.cons_append]

theorem read3_write3Loop (b : Nat) (hb1 : 15 ≤ b) (hb2 : b ≤ 21) (samples : List Int)
    (slots : Nat) (hr : ∀ s ∈ samples, -(2 ^ (b - 1) : Int) ≤ s ∧ s < 2 ^ (b - 1)) :
    read3Loop b (write3Loop b samples slots).1 =
      samples.take slots ++ List.replicate (slots - samples.length) (dec3s b 0 0 0) := by
  induction slots generalizing samples with
  | zero => simp [write3Loop, read3Loop]
  | succ n ih =>
    cases samples with
    | nil =>
      simp only [write3Loop, List.take_nil, List.length_nil, Nat.sub_zero, List.nil_append]
      exact read3Loop_replicate b (n + 1)
    | cons s rest =>
      have hs := hr s (by simp)
      have hrest : ∀ x ∈ rest, -(2 ^ (b - 1) : Int) ≤ x ∧ x < 2 ^ (b - 1) :=
        fun x hx => hr x (List.mem_cons_of_mem _ hx)
      simp only [write3Loop, read3Loop]
      rw [dec3s_enc3 b s hb1 hb2 hs.1 hs.2, ih rest hrest]
      simp only [List.take_succ_cons, List.length_cons, Nat.succ_sub_succ, List.cons_append]

theorem read4_write4Loop (b : Nat) (hb1 : 22 ≤ b) (hb2 : b ≤ 28) (samples : List Int)
    (slots : Nat) (hr : ∀ s ∈ samples, -(2 ^ (b - 1) : Int) ≤ s ∧ s < 2 ^ (b - 1)) :
    read4Loop b (write4Loop b samples slots).1 =
      samples.take slots ++ List.replicate (slots - samples.length) (dec4s b 0 0 0 0) := by
  induction slots generalizing samples with
  | zero => simp [write4Loop, read4Loop]
  | succ n ih =>
    cases samples with
    | nil =>
      simp only [write4Loop, List.take_nil, List.length_nil, Nat.sub_zero, List.nil_append]
      exact read4Loop_replicate b (n + 1)
    | cons s rest =>
      have hs := hr s (by simp)
      have hrest : ∀ x ∈ rest, -(2 ^ (b - 1) : Int) ≤ x ∧ x < 2 ^ (b - 1) :=
        fun x hx => hr x (List.mem_cons_of_mem _ hx)
      simp only [write4Loop, read4Loop]
      rw [dec4s_enc4 b s hb1 hb2 hs.1 hs.2, ih rest hrest]
      simp only [List.take_succ_cons, List.length_cons, Nat.succ_sub_succ, List.cons_append]

theorem write2Loop_drop (b : Nat) (samples : List Int) (slots : Nat) :
    (write2Loop b samples slots).1.drop (2 * min samples.length slots) =
      List.replicate (2 * (slots - samples.length)) 0 := by
  induction slots generalizing samples with
  | zero => simp [write2Loop]
  | succ n ih =>
    cases samples with
    | nil => simp [write2Loop]
    | cons s rest =>
      simp only [write2Loop, List.length_cons]
      rw [show 2 * min (rest.length + 1) (n + 1) = 2 * min rest.length n + 1 + 1 from by omega]
      simp only [List.drop_succ_cons]
      rw [ih rest]
      congr 1
      omega

theorem write3Loop_drop (b : Nat) (samples : List Int) (slots : Nat) :
    (write3Loop b samples slots).1.drop (3 * min samples.length slots) =
      List.replicate (3 * (slots - samples.length)) 0 := by
  induction slots generalizing samples with
  | zero => simp [write3Loop]
  | succ n ih =>
    cases samples with
    | nil => simp [write3Loop]
    | cons s rest =>
      simp only [write3Loop, List.length_cons]
      rw [show 3 * min (rest.length + 1) (n + 1) = 3 * min rest.length n + 1 + 1 + 1 from
        by omega]
      simp only [List.drop_succ_cons]
      rw [ih rest]
      congr 1
      omega

theorem write4Loop_drop (b : Nat) (samples : List Int) (slots : Nat) :
    (write4Loop b samples slots).1.drop (4 * min samples.length slots) =
      List.replicate (4 * (slots - samples.length)) 0 := by
  induction slots generalizing samples with
  | zero => simp [write4Loop]
  | succ n ih =>
    cases samples with
    | nil => simp [write4Loop]
    | cons s rest =>
      simp only [write4Loop, List.length_cons]
      rw [show 4 * min (rest.length + 1) (n + 1) = 4 * min rest.length n + 1 + 1 + 1 + 1 from
        by omega]
      simp only [List.drop_succ_cons]
      rw [ih rest]
      congr 1
      omega

/-- Truncating the decoded packet contents to the original sample count leaves
exactly the consumed prefix of the original samples. -/
theorem take_orig (z : Int) (samples : List Int) (slots : Nat) :
    (samples.take slots ++ List.replicate (slots - samples.length) z).take samples.length =
      samples.take slots := by
  rcases le_or_lt samples.length slots with h | h
  · rw [List.take_of_length_le h]
    exact List.take_left samples _
  · rw [show slots - samples.length = 0 from by omega, List.replicate_zero, List.append_nil]
    exact List.take_of_length_le (by simp)

/-- C4: for every bit depth in `[8, 28]` and every list of samples in the
signed range of that depth, decoding the packet produced by `SetSamples` with
`GetSamples` and truncating to the original count reproduces the consumed
samples exactly (all of them when the list fits in one packet), and every
payload byte beyond the consumed samples is zero. -/
theorem c4_bit_packing_roundtrip (d : Int) (pkt : DataPacket) (samples : List Int)
    (hd1 : 8 ≤ d) (hd2 : d ≤ 28)
    (hr : ∀ s ∈ samples, -(2 ^ (d.toNat - 1) : Int) ≤ s ∧ s ≤ 2 ^ (d.toNat - 1) - 1) :
    ∃ pkt2 rem decoded,
      pkt.SetSamples samples d = .ok (pkt2, rem) ∧
      pkt2.GetSamples [] d = .ok decoded ∧
      decoded.take samples.length = samples.take (capacity d) ∧
      (samples.length ≤ capacity d → decoded.take samples.length = samples) ∧
      pkt2.data.drop (groupBytes d * min samples.length (capacity d)) =
        List.replicate (groupBytes d * (capacity d - samples.length)) 0 := by
  have hr' : ∀ s ∈ samples, -(2 ^ (d.toNat - 1) : Int) ≤ s ∧ s < 2 ^ (d.toNat - 1) :=
    fun s hs => ⟨(hr s hs).1, by have := (hr s hs).2; omega⟩
  have hd8 : ¬ d < 8 := by omega
  rcases le_or_lt d 14 with h14 | h14
  · have hcap : capacity d = 60 := by unfold capacity; rw [if_pos h14]
    have hgb : groupBytes d = 2 := by unfold groupBytes; rw [if_pos h14]
    refine ⟨{ pkt with data := (write2Loop d.toNat samples 60).1 }, samples.drop 60,
      read2Loop d.toNat (write2Loop d.toNat samples 60).1, ?_, ?_, ?_, ?_, ?_⟩
    · unfold DataPacket.SetSamples DataPacket.write2
      rw [if_neg hd8, if_pos h14, write2Loop_snd]
      rfl
    · unfold DataPacket.GetSamples DataPacket.read2
      rw [if_neg hd8, if_pos h14]
      rfl
    · rw [read2_write2Loop d.toNat (by omega) (by omega) samples 60 hr', hcap]
      exact take_orig _ samples 60
    · intro hlen
      rw [read2_write2Loop d.toNat (by omega) (by omega) samples 60 hr',
        take_orig _ samples 60]
      rw [hcap] at hlen
      exact List.take_of_length_le hlen
    · rw [hcap, hgb]
      exact write2Loop_drop d.toNat samples 60
  · rcases le_or_lt d 21 with h21 | h21
    · have h14n : ¬ d ≤ 14 := by omega
      have hcap : capacity d = 40 := by unfold capacity; rw [if_neg h14n, if_pos h21]
      have hgb : groupBytes d = 3 := by unfold groupBytes; rw [if_neg h14n, if_pos h21]
      refine ⟨{ pkt with data := (write3Loop d.toNat samples 40).1 }, samples.drop 40,
        read3Loop d.toNat (write3Loop d.toNat samples 40).1, ?_, ?_, ?_, ?_, ?_⟩
      · unfold DataPacket.SetSamples DataPacket.write3
        rw [if_neg hd8, if_neg h14n, if_pos h21, write3Loop_snd]
        rfl
      · unfold DataPacket.GetSamples DataPacket.read3
        rw [if_neg hd8, if_neg h14n, if_pos h21]
        rfl
      · rw [read3_write3Loop d.toNat (by omega) (by omega) samples 40 hr', hcap]
        exact take_orig _ samples 40
      · intro hlen
        rw [read3_write3Loop d.toNat (by omega) (by omega) samples 40 hr',
          take_orig _ samples 40]
        rw [hcap] at hlen
        exact List.take_of_length_le hlen
      · rw [hcap, hgb]
        exact write3Loop_drop d.toNat samples 40
    · have h14n : ¬ d ≤ 14 := by omega
      have h21n : ¬ d ≤ 21 := by omega
      have hcap : capacity d = 30 := by unfold capacity; rw [if_neg h14n, if_neg h21n]
      have hgb : groupBytes d = 4 := by unfold groupBytes; rw [if_neg h14n, if_neg h21n]
      refine ⟨{ pkt with data := (write4Loop d.toNat samples 30).1 }, samples.drop 30,
        read4Loop d.toNat (write4Loop d.toNat samples 30).1, ?_, ?_, ?_, ?_, ?_⟩
      · unfold DataPacket.SetSamples DataPacket.write4
        rw [if_neg hd8, if_neg h14n, if_neg h21n, if_pos hd2, write4Loop_snd]
        rfl
      · unfold DataPacket.GetSamples DataPacket.read4
        rw [if_neg hd8, if_neg h14n, if_neg h21n, if_pos hd2]
        rfl
      · rw [read4_write4Loop d.toNat (by omega) (by omega) samples 30 hr', hcap]
        exact take_orig _ samples 30
      · intro hlen
        rw [read4_write4Loop d.toNat (by omega) (by omega) samples 30 hr',
          take_orig _ samples 30]
        rw [hcap] at hlen
        exact List.take_of_length_le hlen
      · rw [hcap, hgb]
        exact write4Loop_drop d.toNat samples 30

/-- Witness for C4: the round trip at depth 8 with samples `[-127, -126, -125]`. -/
theorem c4_bit_packing_roundtrip_witness :
    ∃ pkt2 rem decoded,
      DataPacket.SetSamples ⟨0, 0, List.replicate 120 0, 0⟩ [-127, -126, -125] 8 =
        .ok (pkt2, rem) ∧
      pkt2.GetSamples [] 8 = .ok decoded ∧
      decoded.take 3 = [-127, -126, -125].take (capacity 8) ∧
      ((3 : Nat) ≤ capacity 8 → decoded.take 3 = [-127, -126, -125]) ∧
      pkt2.data.drop (groupBytes 8 * min 3 (capacity 8)) =
        List.replicate (groupBytes 8 * (capacity 8 - 3)) 0 :=
  c4_bit_packing_roundtrip 8 ⟨0, 0, List.replicate 120 0, 0⟩ [-127, -126, -125]
    (by norm_num) (by norm_num) (by decide)

/-- C2 counterexample: at bit depth 7, `GetSamples` and `SetSamples` take the
Go `panic` branch (modelled as `Except.error (GoPanic ...)`): the rejection
halts execution instead of producing an `UnsupportedBitDepth` result value. -/
theorem c2_counterexample :
    DataPacket.GetSamples ⟨0, 0, List.replicate 120 0, 0⟩ [] 7 =
      .error ⟨"bit depth < 8 is not supported"⟩ ∧
    DataPacket.SetSamples ⟨0, 0, List.replicate 120 0, 0⟩ [] 7 =
      .error ⟨"bit depth < 8 is not supported"⟩ :=
  ⟨rfl, rfl⟩

/-- C2 amended: for every bit depth below 8 or above 28, `SetSamples` and
`GetSamples` reject the input by panicking (halting execution with a message),
not by returning an explicit `UnsupportedBitDepth` result. -/
theorem c2_amended (pkt : DataPacket) (s samples : List Int) (d : Int)
    (h : d < 8 ∨ 28 < d) :
    (∃ p, pkt.GetSamples s d = .error p) ∧ (∃ p, pkt.SetSamples samples d = .error p) := by
  rcases h with h | h
  · refine ⟨⟨⟨"bit depth < 8 is not supported"⟩, ?_⟩,
      ⟨⟨"bit depth < 8 is not supported"⟩, ?_⟩⟩
    · unfold DataPacket.GetSamples
      rw [if_pos h]
    · unfold DataPacket.SetSamples
      rw [if_pos h]
  · have h8 : ¬ d < 8 := by omega
    have h14 : ¬ d ≤ 14 := by omega
    have h21 : ¬ d ≤ 21 := by omega
    have h28 : ¬ d ≤ 28 := by omega
    refine ⟨⟨⟨"bit depth > 28 is not supported"⟩, ?_⟩,
      ⟨⟨"bit depth > 28 is not supported"⟩, ?_⟩⟩
    · unfold DataPacket.GetSamples
      rw [if_neg h8, if_neg h14, if_neg h21, if_neg h28]
    · unfold DataPacket.SetSamples
      rw [if_neg h8, if_neg h14, if_neg h21, if_neg h28]

/-- Witness for the amended C2 at bit depth 7. -/
theorem c2_amended_witness :
    (∃ p, DataPacket.GetSamples ⟨0, 0, List.replicate 120 0, 0⟩ [] 7 = .error p) ∧
    (∃ p, DataPacket.SetSamples ⟨0, 0, List.replicate 120 0, 0⟩ [] 7 = .error p) :=
  c2_amended ⟨0, 0, List.replicate 120 0, 0⟩ [] [] 7 (by norm_num)

set_option maxRecDepth 4096 in
/-- C1 counterexample: on the all-zero packet the computed checksum (`0x7C`)
differs from the spec's XOR-fold starting at the leading `0xF0` (`0x0C`): the
fold in the code cancels `buf[0]` against the accumulator's initial value, so
the leading `0xF0` is never covered. -/
theorem c1_counterexample :
    DataPacket.ComputeChecksum ⟨0, 0, List.replicate 120 0, 0⟩ ≠
      specChecksumFromF0 ⟨0, 0, List.replicate 120 0, 0⟩ := by decide

/-- C1 amended: `ComputeChecksum` equals the XOR-fold of the encoded bytes
from the `0x7E` byte (index 1) through the last payload byte (index 124),
excluding the leading `0xF0`, the checksum byte and the trailing `0xF7`,
masked to 7 bits. -/
theorem c1_amended (msg : DataPacket) :
    msg.ComputeChecksum = specChecksumFrom7E msg := by
  unfold DataPacket.ComputeChecksum specChecksumFrom7E
  obtain ⟨t, ht⟩ : ∃ t, msg.Encode [] = 0xF0 :: t :=
    ⟨0x7E :: (msg.channel &&& 0x7F) :: 0x02 :: (msg.packetNumber &&& 0x7F) ::
      (msg.data ++ [msg.checksum &&& 0x7F, 0xF7]), by simp [DataPacket.Encode]⟩
  rw [ht, show dataPacketSize - 1 - 1 = 124 + 1 from rfl,
    show (125 : Nat) = 124 + 1 from rfl, List.take_succ_cons]
  simp [Nat.xor_self]

/-- A byte list carries the sysex marker exactly when it starts `0xF0 0x7E`. -/
theorem hasPre_sdsPre (l : List Nat) : hasPre l sdsPre = true ↔ ∃ t, l = 0xF0 :: 0x7E :: t := by
  rcases l with _ | ⟨a, _ | ⟨b, t⟩⟩ <;> simp [hasPre, sdsPre]

/-- In-range Go indexing yields the list element. -/
theorem goIndex_lt (l : List Nat) (i : Nat) (h : i < l.length) :
    goIndex l i = some (l.getD i 0) := by
  unfold goIndex
  rw [List.get?_eq_getElem?, List.getD_eq_getElem?_getD, List.getElem?_eq_getElem h]
  rfl

theorem errOf_error (e : GoError) : errOf (.error e) = some e := rfl

theorem errOf_ok (m : Message) : errOf (.ok m) = none := rfl

theorem errOf_ite (c : Prop) [Decidable c] (a b : Except GoError Message) :
    errOf (if c then a else b) = if c then errOf a else errOf b := apply_ite errOf c a b

/-- The decode result errs exactly as classified by `specDecodeError`. -/
theorem decode_err_classified (sysex : List Nat) :
    errOf (Decode sysex) = specDecodeError sysex := by
  unfold Decode specDecodeError
  cases hp : hasPre sysex sdsPre with
  | false => simp [errOf_error, errOf_ok, errOf_ite]
  | true =>
    obtain ⟨t, rfl⟩ := (hasPre_sdsPre sysex).mp hp
    rw [goIndex_lt _ _ (by simp)]
    simp only [List.length_cons, Nat.add_sub_cancel, List.getD_cons_succ, List.getD_cons_zero]
    by_cases hlast : (126 :: t).getD t.length 0 = 0xF7
    · have hlast2 : (126 :: t)[t.length] = 0xF7 := by
        have := hlast
        rwa [List.getD_eq_getElem?_getD, List.getElem?_eq_getElem (by simp),
          Option.getD_some] at this
      by_cases hlen : t.length + 1 + 1 < 4
      · simp [hlast2, hlen, errOf_error, errOf_ok, errOf_ite]
      · rw [goIndex_lt _ _ (show 3 < (0xF0 :: 0x7E :: t).length by simp; omega)]
        simp only [List.getD_cons_succ, List.getD_cons_zero]
        by_cases h1 : t[1]?.getD 0 = 0x01
        · simp [hlast2, hlen, h1, errOf_error, errOf_ok, errOf_ite, decodeDumpHeader, dumpHeaderSize, apply_ite errOf]
        · by_cases h2 : t[1]?.getD 0 = 0x02
          · simp [hlast2, hlen, h1, h2, errOf_error, errOf_ok, errOf_ite, decodeDataPacket, dataPacketSize,
              apply_ite errOf]
          · by_cases h3 : t[1]?.getD 0 = 0x03
            · simp [hlast2, hlen, h1, h2, h3, errOf_error, errOf_ok, errOf_ite, decodeDumpRequest, dumpRequestSize,
                apply_ite errOf]
            · by_cases hc : t[1]?.getD 0 = 0x7C ∨ t[1]?.getD 0 = 0x7D ∨ t[1]?.getD 0 = 0x7E ∨
                t[1]?.getD 0 = 0x7F
              · simp [hlast2, hlen, h1, h2, h3, hc, errOf_error, errOf_ok, errOf_ite, decodeControlPacket,
                  controlPacketSize, apply_ite errOf]
              · simp [hlast2, hlen, h1, h2, h3, hc, errOf_error, errOf_ok, errOf_ite]
    · have hlast2 : ¬ (126 :: t)[t.length] = 0xF7 := by
        intro hx
        exact hlast (by
          rw [List.getD_eq_getElem?_getD, List.getElem?_eq_getElem (by simp),
            Option.getD_some, hx])
      simp [hlast2, errOf_error, errOf_ok, errOf_ite]

/-- C6: `Decode` fails exactly as the spec describes — `NotSysex` for a
missing `0xF0 0x7E` prefix or trailing `0xF7`, then `TooShort` below length 4,
then sub-ID dispatch with `UnknownMessageType` for unknown sub-IDs, `BadSize`
for wrong exact lengths (21/127/7/6) and `UnsupportedBitDepth` for a header
bit depth outside `[8, 28]` — and succeeds otherwise. -/
theorem c6_decode_error_discipline (sysex : List Nat) :
    errOf (Decode sysex) = specDecodeError sysex :=
  decode_err_classified sysex

theorem regularResult_ite (c : Prop) [Decidable c] (a b : Except GoError Message) :
    regularResult (if c then a else b) =
      if c then regularResult a else regularResult b :=
  apply_ite regularResult c a b

/-- C10: `Decode` is total over arbitrary byte sequences — on every input,
including the empty one and inputs of length 1 to 3, it returns a message or
a decode error and never reaches the out-of-bounds indexing panic (the prefix
check short-circuits before the trailing-byte access). -/
theorem c10_decode_total (sysex : List Nat) : regularResult (Decode sysex) = true := by
  have h := decode_err_classified sysex
  have hspec : specDecodeError sysex ≠ some .indexOutOfRange := by
    unfold specDecodeError
    split_ifs <;>
      first
      | exact fun hx => Option.noConfusion hx
      | exact fun hx => GoError.noConfusion (Option.some.inj hx)
  cases hd : Decode sysex with
  | ok m => rfl
  | error e =>
    rw [hd] at h
    cases e <;> first | rfl | exact absurd h.symm hspec

theorem and127_eq_self {x : Nat} (h : x < 2 ^ 7) : x &&& 0x7F = x := by
  rw [and127]
  exact Nat.mod_eq_of_lt (by simpa using h)

theorem and63_eq_self {x : Nat} (h : x < 2 ^ 6) : x &&& 0x3F = x := by
  rw [and63]
  exact Nat.mod_eq_of_lt (by simpa using h)

/-- `dec14bit` inverts the byte split of `append14bit` for 14-bit values. -/
theorem dec14_enc (n : Nat) (h : n < 2 ^ 14) :
    dec14bit (n % 256 &&& 0x7F) ((n >>> 7) % 256 &&& 0x7F) = n := by
  have h7 : n / 2 ^ 7 < 2 ^ 7 := by
    rw [Nat.div_lt_iff_lt_mul (by norm_num)]
    norm_num at h ⊢
    omega
  have e1 : (n % 256 &&& 0x7F) &&& 0x7F = n % 2 ^ 7 := by
    rw [mod256_and127, and127, Nat.mod_mod_of_dvd n (dvd_refl 128)]
    norm_num
  have e2 : ((n >>> 7) % 256 &&& 0x7F) &&& 0x7F = n / 2 ^ 7 := by
    rw [Nat.shiftRight_eq_div_pow, mod256_and127, and127,
      Nat.mod_mod_of_dvd _ (dvd_refl 128)]
    exact Nat.mod_eq_of_lt (by simpa using h7)
  unfold dec14bit
  rw [e1, e2, Nat.shiftLeft_eq]
  calc n % 2 ^ 7 ||| n / 2 ^ 7 * 2 ^ 7 = 2 ^ 7 * (n / 2 ^ 7) ||| n % 2 ^ 7 := by
        rw [Nat.lor_comm, mul_comm]
  _ = n := or_digit0 n 7

/-- The low and middle 7-bit groups of a 20-bit split reassemble its low
14 bits. -/
theorem or_low_mid (n : Nat) :
    n % 2 ^ 7 ||| (n / 2 ^ 7 % 2 ^ 7) * 2 ^ 7 = n % 2 ^ 14 := by
  rw [Nat.lor_comm, mul_comm, ← Nat.mul_add_lt_is_or (Nat.mod_lt _ (by norm_num)) _,
    show ((2 : Nat) ^ 14) = 2 ^ 7 * 2 ^ 7 from by norm_num, Nat.mod_mul]
  ring

/-- `dec20bit` inverts the byte split of `append20bit` for 20-bit values. -/
theorem dec20_enc (n : Nat) (h : n < 2 ^ 20) :
    dec20bit (n % 256 &&& 0x7F) ((n >>> 7) % 256 &&& 0x7F) ((n >>> 14) % 256 &&& 0x3F) = n := by
  have h6 : n / 2 ^ 14 < 2 ^ 6 := by
    rw [Nat.div_lt_iff_lt_mul (by norm_num)]
    norm_num at h ⊢
    omega
  have e1 : (n % 256 &&& 0x7F) &&& 0x7F = n % 2 ^ 7 := by
    rw [mod256_and127, and127, Nat.mod_mod_of_dvd n (dvd_refl 128)]
    norm_num
  have e2 : ((n >>> 7) % 256 &&& 0x7F) &&& 0x7F = n / 2 ^ 7 % 2 ^ 7 := by
    rw [Nat.shiftRight_eq_div_pow, mod256_and127, and127,
      Nat.mod_mod_of_dvd _ (dvd_refl 128)]
    norm_num
  have e3 : ((n >>> 14) % 256 &&& 0x3F) &&& 0x3F = n / 2 ^ 14 := by
    rw [Nat.and_assoc, show (0x3F &&& 0x3F : Nat) = 0x3F from rfl,
      Nat.shiftRight_eq_div_pow, and63, Nat.mod_mod_of_dvd _ (by norm_num)]
    exact Nat.mod_eq_of_lt (by simpa using h6)
  unfold dec20bit
  rw [e1, e2, e3, Nat.shiftLeft_eq, Nat.shiftLeft_eq, or_low_mid]
  calc n % 2 ^ 14 ||| n / 2 ^ 14 * 2 ^ 14 = 2 ^ 14 * (n / 2 ^ 14) ||| n % 2 ^ 14 := by
        rw [Nat.lor_comm, mul_comm]
  _ = n := or_digit0 n 14

/-- Decoding an explicit 21-byte header frame. -/
theorem decode_header_frame (b2 b4 b5 b6 b7 b8 b9 b10 b11 b12 b13 b14 b15 b16 b17 b18
    b19 : Nat) (hbd : ¬ (b6 < 8 ∨ b6 > 28)) :
    Decode [0xF0, 0x7E, b2, 0x01, b4, b5, b6, b7, b8, b9, b10, b11, b12, b13, b14, b15,
      b16, b17, b18, b19, 0xF7] =
      .ok (.header
        { channel := b2
          number := dec14bit b4 b5
          bitDepth := b6
          period := dec20bit b7 b8 b9
          length := dec20bit b10 b11 b12
          loopStart := dec20bit b13 b14 b15
          loopEnd := dec20bit b16 b17 b18
          loopType := b19 }) := by
  unfold Decode decodeDumpHeader
  rw [goIndex_lt _ _ (by simp)]
  simp [hasPre, sdsPre, goIndex, dumpHeaderSize, hbd]

/-- Decoding an explicit 7-byte dump-request frame. -/
theorem decode_request_frame (b2 b4 b5 : Nat) :
    Decode [0xF0, 0x7E, b2, 0x03, b4, b5, 0xF7] =
      .ok (.request { channel := b2, number := dec14bit b4 b5 }) := by
  unfold Decode decodeDumpRequest
  rw [goIndex_lt _ _ (by simp)]
  simp [hasPre, sdsPre, goIndex, dumpRequestSize]

/-- Decoding an explicit 6-byte control frame with a protocol control type. -/
theorem decode_control_frame (b2 b3 b4 : Nat)
    (hb3 : b3 = 0x7C ∨ b3 = 0x7D ∨ b3 = 0x7E ∨ b3 = 0x7F) :
    Decode [0xF0, 0x7E, b2, b3, b4, 0xF7] =
      .ok (.control { type := b3, channel := b2, packetNumber := b4 }) := by
  have hne1 : b3 ≠ 0x01 := by rcases hb3 with h | h | h | h <;> omega
  have hne2 : b3 ≠ 0x02 := by rcases hb3 with h | h | h | h <;> omega
  have hne3 : b3 ≠ 0x03 := by rcases hb3 with h | h | h | h <;> omega
  unfold Decode decodeControlPacket
  rw [goIndex_lt _ _ (by simp)]
  simp [hasPre, sdsPre, goIndex, controlPacketSize, hne1, hne2, hne3, hb3]

/-- Decoding an explicit 127-byte data-packet frame. -/
theorem decode_data_frame (b2 b4 cs : Nat) (data : List Nat) (hdata : data.length = 120) :
    Decode (0xF0 :: 0x7E :: b2 :: 0x02 :: b4 :: (data ++ [cs, 0xF7])) =
      .ok (.data { channel := b2, packetNumber := b4, data := data, checksum := cs }) := by
  have hlen : (0xF0 :: 0x7E :: b2 :: 0x02 :: b4 :: (data ++ [cs, 0xF7])).length = 127 := by
    simp [hdata]
  have hlast : (0xF0 :: 0x7E :: b2 :: 0x02 :: b4 :: (data ++ [cs, 0xF7])).getD 126 0 =
      0xF7 := by
    rw [List.getD_eq_getElem?_getD]
    simp only [List.getElem?_cons_succ]
    rw [List.getElem?_append_right (by omega)]
    simp [hdata]
  have hcs2 : (data ++ [cs, 0xF7]).getD 120 0 = cs := by
    rw [List.getD_eq_getElem?_getD, List.getElem?_append_right (by omega)]
    simp [hdata]
  have htake : List.take 120 (data ++ [cs, 0xF7]) = data := List.take_left' hdata
  unfold Decode decodeDataPacket
  rw [goIndex_lt _ _ (by simp),
    show (0xF0 :: 0x7E :: b2 :: 0x02 :: b4 :: (data ++ [cs, 0xF7])).length - 1 = 126 from
      by rw [hlen], hlast]
  rw [goIndex_lt _ _ (by simp)]
  simp only [List.getD_cons_succ, List.getD_cons_zero, hlen, dataPacketSize,
    List.drop_succ_cons, List.drop_zero, htake, hcs2]
  rw [if_neg (by simp [hasPre, sdsPre])]
  norm_num

/-- C5 counterexample: a `ControlPacket` whose type is the 7-bit value `0` is
encodable, but `Decode` of its encoding fails with an unknown-sub-ID error
instead of returning the message: the claim's width bound on the control type
is not enough for the round trip. -/
theorem c5_counterexample :
    Decode (Message.Encode (.control ⟨0, 0, 0⟩) []) = .error (.invalidMessageId 0) := by
  decide

/-- C5 amended: for every message whose numeric fields lie within their
declared bit widths, and whose control type (for control packets) is one of
the four protocol types `0x7C`-`0x7F`, `Decode (Encode m)` succeeds and
returns `m`. -/
theorem c5_encode_decode_roundtrip (m : Message) (wf : WellFormed m) :
    Decode (m.Encode []) = .ok m := by
  cases m with
  | header h =>
    obtain ⟨hch, hnum, hbd1, hbd2, hper, hlen, hls, hle, hlt⟩ := wf
    have hbd : h.bitDepth < 2 ^ 7 := by omega
    have henc : (Message.header h).Encode [] =
        [0xF0, 0x7E, h.channel &&& 0x7F, 0x01,
         h.number % 256 &&& 0x7F, (h.number >>> 7) % 256 &&& 0x7F,
         h.bitDepth &&& 0x7F,
         h.period % 256 &&& 0x7F, (h.period >>> 7) % 256 &&& 0x7F,
         (h.period >>> 14) % 256 &&& 0x3F,
         h.length % 256 &&& 0x7F, (h.length >>> 7) % 256 &&& 0x7F,
         (h.length >>> 14) % 256 &&& 0x3F,
         h.loopStart % 256 &&& 0x7F, (h.loopStart >>> 7) % 256 &&& 0x7F,
         (h.loopStart >>> 14) % 256 &&& 0x3F,
         h.loopEnd % 256 &&& 0x7F, (h.loopEnd >>> 7) % 256 &&& 0x7F,
         (h.loopEnd >>> 14) % 256 &&& 0x3F,
         h.loopType &&& 0x7F, 0xF7] := by
      simp [Message.Encode, DumpHeader.Encode, append14bit, append20bit]
    rw [henc, decode_header_frame _ _ _ _ _ _ _ _ _ _ _ _ _ _ _ _ _
      (by rw [and127_eq_self hbd]; omega)]
    rw [and127_eq_self hch, and127_eq_self hbd, and127_eq_self hlt,
      dec14_enc _ hnum, dec20_enc _ hper, dec20_enc _ hlen, dec20_enc _ hls,
      dec20_enc _ hle]
  | request r =>
    obtain ⟨hch, hnum⟩ := wf
    have henc : (Message.request r).Encode [] =
        [0xF0, 0x7E, r.channel &&& 0x7F, 0x03,
         r.number % 256 &&& 0x7F, (r.number >>> 7) % 256 &&& 0x7F, 0xF7] := by
      simp [Message.Encode, DumpRequest.Encode, append14bit]
    rw [henc, decode_request_frame, and127_eq_self hch, dec14_enc _ hnum]
  | data p =>
    obtain ⟨hch, hpn, hdata, hcs⟩ := wf
    have henc : (Message.data p).Encode [] =
        0xF0 :: 0x7E :: (p.channel &&& 0x7F) :: 0x02 :: (p.packetNumber &&& 0x7F) ::
          (p.data ++ [p.checksum &&& 0x7F, 0xF7]) := by
      simp [Message.Encode, DataPacket.Encode]
    rw [henc, decode_data_frame _ _ _ _ hdata, and127_eq_self hch, and127_eq_self hpn,
      and127_eq_self hcs]
  | control c =>
    obtain ⟨hch, hpn, htype⟩ := wf
    have htv : c.type < 2 ^ 7 := by
      rcases htype with h | h | h | h <;> simp [h, Ack, Nak, Cancel, Wait]
    have henc : (Message.control c).Encode [] =
        [0xF0, 0x7E, c.channel &&& 0x7F, c.type &&& 0x7F, c.packetNumber &&& 0x7F,
         0xF7] := by
      simp [Message.Encode, ControlPacket.Encode]
    rw [henc, decode_control_frame _ _ _ (by
      rw [and127_eq_self htv]
      rcases htype with h | h | h | h <;> simp [h, Ack, Nak, Cancel, Wait])]
    rw [and127_eq_self hch, and127_eq_self hpn, and127_eq_self htv]

/-- Witness for the amended C5: the four message variants of the package's
own encoding test round-trip. -/
theorem c5_encode_decode_roundtrip_witness :
    Decode (Message.Encode (.header ⟨1, 2, 16, 4, 5, 6, 7, 8⟩) []) =
      .ok (.header ⟨1, 2, 16, 4, 5, 6, 7, 8⟩) ∧
    Decode (Message.Encode (.request ⟨1, 2⟩) []) = .ok (.request ⟨1, 2⟩) ∧
    Decode (Message.Encode
        (.data ⟨1, 2, 3 :: 4 :: 5 :: 6 :: List.replicate 116 0, 7⟩) []) =
      .ok (.data ⟨1, 2, 3 :: 4 :: 5 :: 6 :: List.replicate 116 0, 7⟩) ∧
    Decode (Message.Encode (.control ⟨Ack, 1, 8⟩) []) = .ok (.control ⟨Ack, 1, 8⟩) :=
  ⟨c5_encode_decode_roundtrip _ (by norm_num [WellFormed]),
   c5_encode_decode_roundtrip _ (by norm_num [WellFormed]),
   c5_encode_decode_roundtrip _ (by norm_num [WellFormed]),
   c5_encode_decode_roundtrip _ (by norm_num [WellFormed, Ack, Nak, Cancel, Wait])⟩

theorem getD_set_ne (l : List Nat) (i j v : Nat) (h : i ≠ j) :
    (l.set i v).getD j 0 = l.getD j 0 := by
  rw [List.getD_eq_getElem?_getD, List.getD_eq_getElem?_getD, List.getElem?_set_ne h]

theorem getD_set_self (l : List Nat) (i v : Nat) (h : i < l.length) :
    (l.set i v).getD i 0 = v := by
  rw [List.getD_eq_getElem?_getD, List.getElem?_set_self h]
  rfl

/-- Overwriting the checksum byte of a 127-byte frame leaves the 120-byte
payload slice unchanged. -/
theorem dropTake_set (l : List Nat) (c : Nat) (h : l.length = 127) :
    ((l.set 125 c).drop 5).take 120 = (l.drop 5).take 120 := by
  rw [List.drop_set, if_neg (by norm_num), show (125 : Nat) - 5 = 120 from by norm_num,
    List.set_take]
  exact List.set_eq_of_length_le (by simp [h])

/-- Any correctly framed 127-byte data-packet message decodes to the packet
read off its bytes, the checksum byte taken verbatim and unverified. -/
theorem decode_data_any (l : List Nat) (hlen : l.length = 127)
    (hpre : hasPre l sdsPre = true) (hlast : l.getD 126 0 = 0xF7)
    (hid : l.getD 3 0 = 0x02) :
    Decode l = .ok (.data
      { channel := l.getD 2 0
        packetNumber := l.getD 4 0
        data := (l.drop 5).take 120
        checksum := l.getD 125 0 }) := by
  unfold Decode decodeDataPacket
  rw [if_neg (by simp [hpre]), goIndex_lt _ _ (by omega),
    show l.length - 1 = 126 from by omega, hlast, goIndex_lt _ _ (by omega), hid]
  simp [hlen, dataPacketSize]

/-- C7: `Decode` of a correctly framed 127-byte data-packet message succeeds
regardless of the checksum byte: it succeeds on the frame itself, still
succeeds after the checksum byte (offset 125) is replaced by any value, and
the decoded message carries that byte verbatim for the caller to verify. -/
theorem c7_decode_ignores_checksum (sysex : List Nat) (c : Nat)
    (hlen : sysex.length = 127) (hpre : hasPre sysex sdsPre = true)
    (hlast : sysex.getD 126 0 = 0xF7) (hid : sysex.getD 3 0 = 0x02) :
    Decode sysex = .ok (.data
      { channel := sysex.getD 2 0
        packetNumber := sysex.getD 4 0
        data := (sysex.drop 5).take 120
        checksum := sysex.getD 125 0 }) ∧
    Decode (sysex.set 125 c) = .ok (.data
      { channel := sysex.getD 2 0
        packetNumber := sysex.getD 4 0
        data := (sysex.drop 5).take 120
        checksum := c }) := by
  refine ⟨decode_data_any sysex hlen hpre hlast hid, ?_⟩
  have hpre2 : hasPre (sysex.set 125 c) sdsPre = true := by
    obtain ⟨t, ht⟩ := (hasPre_sdsPre sysex).mp hpre
    subst ht
    exact (hasPre_sdsPre _).mpr ⟨t.set 123 c, by simp⟩
  have h := decode_data_any (sysex.set 125 c) (by simp [hlen]) hpre2
    (by rw [getD_set_ne _ _ _ _ (by norm_num)]; exact hlast)
    (by rw [getD_set_ne _ _ _ _ (by norm_num)]; exact hid)
  rw [h, getD_set_ne _ _ _ _ (by norm_num), getD_set_ne _ _ _ _ (by norm_num),
    getD_set_self _ _ _ (by omega), dropTake_set _ _ hlen]

set_option maxRecDepth 8192 in
/-- Witness for C7 on a concrete encoded packet, with the checksum byte
replaced by 0. -/
theorem c7_decode_ignores_checksum_witness :
    Decode (Message.Encode (.data ⟨1, 2, List.replicate 120 5, 7⟩) []) = .ok (.data
      { channel := (Message.Encode (.data ⟨1, 2, List.replicate 120 5, 7⟩) []).getD 2 0
        packetNumber := (Message.Encode (.data ⟨1, 2, List.replicate 120 5, 7⟩) []).getD 4 0
        data := ((Message.Encode (.data ⟨1, 2, List.replicate 120 5, 7⟩) []).drop 5).take 120
        checksum := (Message.Encode (.data ⟨1, 2, List.replicate 120 5, 7⟩) []).getD 125 0 }) ∧
    Decode ((Message.Encode (.data ⟨1, 2, List.replicate 120 5, 7⟩) []).set 125 0) = .ok (.data
      { channel := (Message.Encode (.data ⟨1, 2, List.replicate 120 5, 7⟩) []).getD 2 0
        packetNumber := (Message.Encode (.data ⟨1, 2, List.replicate 120 5, 7⟩) []).getD 4 0
        data := ((Message.Encode (.data ⟨1, 2, List.replicate 120 5, 7⟩) []).drop 5).take 120
        checksum := 0 }) :=
  c7_decode_ignores_checksum (Message.Encode (.data ⟨1, 2, List.replicate 120 5, 7⟩) []) 0
    (by decide) (by decide) (by decide) (by decide)

/-- A valid bit depth makes `SetSamples` succeed, consuming exactly one
packet capacity of samples. -/
theorem setSamples_ok (pkt : DataPacket) (samples : List Int) (d : Int)
    (h1 : 8 ≤ d) (h2 : d ≤ 28) :
    ∃ bytes, pkt.SetSamples samples d =
      .ok ({ pkt with data := bytes }, samples.drop (capacity d)) := by
  have hd8 : ¬ d < 8 := by omega
  unfold DataPacket.SetSamples capacity
  rcases le_or_lt d 14 with h14 | h14
  · refine ⟨(write2Loop d.toNat samples (dataLen / 2)).1, ?_⟩
    rw [if_neg hd8, if_pos h14, if_pos h14]
    unfold DataPacket.write2
    rw [write2Loop_snd]
    rfl
  · have h14n : ¬ d ≤ 14 := by omega
    rcases le_or_lt d 21 with h21 | h21
    · refine ⟨(write3Loop d.toNat samples (dataLen / 3)).1, ?_⟩
      rw [if_neg hd8, if_neg h14n, if_pos h21, if_neg h14n, if_pos h21]
      unfold DataPacket.write3
      rw [write3Loop_snd]
      rfl
    · have h21n : ¬ d ≤ 21 := by omega
      refine ⟨(write4Loop d.toNat samples (dataLen / 4)).1, ?_⟩
      rw [if_neg hd8, if_neg h14n, if_neg h21n, if_pos h2, if_neg h14n, if_neg h21n]
      unfold DataPacket.write4
      rw [write4Loop_snd]
      rfl

theorem capacity_pos (d : Int) : 0 < capacity d := by
  unfold capacity
  split_ifs <;> norm_num

/-- Successive `NextMessage` calls number their packets with the running
counter modulo 128, as long as enough samples remain. -/
theorem runNumbers_general (d : Int) (hd1 : 8 ≤ d) (hd2 : d ≤ 28) :
    ∀ (N : Nat) (s : SendOp), s.bitDepth = d → s.num < 128 →
      N * capacity d ≤ s.samples.length →
      runPacketNumbers s N = .ok ((List.range N).map fun i => some ((s.num + i) % 128)) := by
  intro N
  induction N with
  | zero =>
    intro s _ _ _
    simp [runPacketNumbers]
  | succ n ih =>
    intro s hbd hnum hlen
    have hcap := capacity_pos d
    have hsucc : (n + 1) * capacity d = n * capacity d + capacity d := by ring
    have hlencap : capacity d ≤ s.samples.length := by omega
    have hne : s.Done = false := by
      unfold SendOp.Done
      rw [beq_eq_false_iff_ne]
      omega
    obtain ⟨bytes, hset⟩ := setSamples_ok s.data s.samples d hd1 hd2
    unfold runPacketNumbers SendOp.NextMessage
    rw [hne, hbd]
    simp only [Bool.false_eq_true, if_false, hset]
    unfold SendOp.nextNumber
    have hrec : ∀ s2 : SendOp, s2.bitDepth = d → s2.num < 128 →
        s2.samples = s.samples.drop (capacity d) →
        runPacketNumbers s2 n =
          .ok ((List.range n).map fun i => some ((s2.num + i) % 128)) := by
      intro s2 h1 h2 h3
      refine ih s2 h1 h2 ?_
      rw [h3, List.length_drop]
      omega
    by_cases h127 : s.num ≥ 127
    · have hnum127 : s.num = 127 := by omega
      rw [if_pos h127]
      simp only []
      rw [hrec _ rfl (by show (0 : Nat) < 128; norm_num) rfl]
      simp only [List.range_succ_eq_map, List.map_cons, List.map_map]
      have htail : List.map (fun i => some ((0 + i) % 128)) (List.range n) =
          List.map ((fun i => some ((s.num + i) % 128)) ∘ Nat.succ) (List.range n) := by
        apply List.map_congr_left
        intro a _
        simp only [Function.comp_apply, hnum127, Option.some.injEq]
        omega
      simp [htail, hnum127]
      intro a _
      omega
    · rw [if_neg h127]
      simp only []
      rw [hrec _ rfl (by show s.num + 1 < 128; omega) rfl]
      simp only [List.range_succ_eq_map, List.map_cons, List.map_map]
      have htail : List.map (fun i => some ((s.num + 1 + i) % 128)) (List.range n) =
          List.map ((fun i => some ((s.num + i) % 128)) ∘ Nat.succ) (List.range n) := by
        apply List.map_congr_left
        intro a _
        simp only [Function.comp_apply, Option.some.injEq]
        omega
      simp [htail, Nat.mod_eq_of_lt hnum]

/-- C8: on a session with enough samples for `N` packets, the `N`-th
`NextMessage` call (counting from 1) returns a packet numbered
`(N-1) mod 128`: the `N` successive calls produce packet numbers
`0, 1, ..., 127, 0, 1, ...`, wrapping from 127 back to 0. -/
theorem c8_sequence_wraparound (samples : List Int) (h : DumpHeader) (N : Nat)
    (hd1 : 8 ≤ h.bitDepth) (hd2 : h.bitDepth ≤ 28)
    (hlen : N * capacity (h.bitDepth : Int) ≤ samples.length) :
    runPacketNumbers (NewSendOp samples h).1 N =
      .ok ((List.range N).map fun i => some (i % 128)) := by
  have hg := runNumbers_general (h.bitDepth : Int) (by exact_mod_cast hd1)
    (by exact_mod_cast hd2) N (NewSendOp samples h).1 rfl
    (by show (0 : Nat) < 128; norm_num)
    (by show N * capacity (h.bitDepth : Int) ≤ samples.length; exact hlen)
  rw [hg]
  simp [NewSendOp]

/-- Witness for C8: two calls on a fresh 28-bit session with 60 samples. -/
theorem c8_sequence_wraparound_witness :
    runPacketNumbers (NewSendOp (List.replicate 60 (0 : Int)) ⟨0, 0, 28, 0, 0, 0, 0, 0⟩).1 2 =
      .ok ((List.range 2).map fun i => some (i % 128)) :=
  c8_sequence_wraparound _ _ 2 (by norm_num) (by norm_num) (by decide)

/-- C9: once a `Wait` control packet has set the waiting state, the data loop
sends no further data packet and stays in the waiting state across any run of
events containing no `Ack`, `Nak` or `Cancel` on the matching channel —
timeouts, non-control messages and control packets on other channels never
clear it (the loop may also terminate because the transfer is done, sending
nothing). -/
theorem c9_wait_blocks_sends (ch : Nat) : ∀ (events : List (Option Message))
    (st : LoopState), st.waiting = true →
    (∀ e ∈ events, wfCtl e = true ∧ isClearingCtl ch e = false) →
    ∃ out, runTransferData ch st events = .ok ([], out) ∧
      (out = .finished ∨ ∃ st2, out = .running st2 ∧ st2.waiting = true) := by
  intro events
  induction events with
  | nil =>
    intro st hw _
    exact ⟨.running st, rfl, .inr ⟨st, rfl, hw⟩⟩
  | cons e es ih =>
    intro st hw hev
    obtain ⟨hwf, hcl⟩ := hev e (by simp)
    have hev2 : ∀ x ∈ es, wfCtl x = true ∧ isClearingCtl ch x = false :=
      fun x hx => hev x (List.mem_cons_of_mem _ hx)
    by_cases hdone : st.op.Done
    · refine ⟨.finished, ?_, .inl rfl⟩
      unfold runTransferData transferDataStep
      rw [if_pos hdone]
    · have hstep : transferDataStep ch st e =
          .ok (.looped none { op := st.op, waiting := true }) := by
        unfold transferDataStep
        rw [if_neg hdone, hw]
        cases e with
        | none => rfl
        | some m =>
          cases m with
          | control c =>
            by_cases hch : c.channel = ch
            · have htype : c.type = Wait := by
                simp [isClearingCtl, hch] at hcl
                simp [wfCtl] at hwf
                tauto
              simp [hch, htype, Ack, Nak, Cancel, Wait]
            · simp [hch]
          | header hh => rfl
          | data p => rfl
          | request r => rfl
      obtain ⟨out, hrun, hout⟩ := ih { op := st.op, waiting := true } rfl hev2
      refine ⟨out, ?_, hout⟩
      unfold runTransferData
      rw [hstep]
      simp [hrun]

/-- Witness for C9: from a waiting state, a timeout, an `Ack` on another
channel and a matching `Wait` all leave the loop waiting with nothing sent. -/
theorem c9_wait_blocks_sends_witness :
    ∃ out, runTransferData 0
        { op := (NewSendOp (List.replicate 60 (0 : Int)) ⟨0, 0, 28, 0, 0, 0, 0, 0⟩).1,
          waiting := true }
        [none, some (.control ⟨Ack, 5, 0⟩), some (.control ⟨Wait, 0, 0⟩)] =
      .ok ([], out) ∧
      (out = .finished ∨ ∃ st2, out = .running st2 ∧ st2.waiting = true) :=
  c9_wait_blocks_sends 0 [none, some (.control ⟨Ack, 5, 0⟩), some (.control ⟨Wait, 0, 0⟩)]
    { op := (NewSendOp (List.replicate 60 (0 : Int)) ⟨0, 0, 28, 0, 0, 0, 0, 0⟩).1,
      waiting := true }
    rfl (by decide)
